import Mathlib

/-!
Shallow embedding of the authorization and authentication core of this
repository: the union authorizer (`plugin/pkg/auth/authorizer/union`),
the keystone authorizer (`pkg/auth/authorizer/keystone`) and the keystone
basic-auth request authenticator
(`plugin/pkg/auth/authenticator/request/keystone`).

Go conventions used throughout the embedding:
* a Go `error` result is `Option Err` (`none` = nil, `some e` = non-nil);
* a Go multi-value return `(T, error)` is the pair `T × Option Err`;
* Go maps from string to string are association lists with the Go
  zero-value convention: a missing key reads as `""`;
* external collaborators (the gophercloud client, the identity provider)
  are parameters of the embedded functions.
-/

/-- A Go `error` value as observable through its message.  `simple` is an
`errors.New` error; `aggregate` is the aggregated failure built by
`errors.NewAggregate`, kept structurally as the list of the aggregated
messages so that order and multiplicity are preserved. -/
inductive Err where
  | simple (msg : String)
  | aggregate (msgs : List String)
deriving DecidableEq, Repr

/-- The message carried by an error; an aggregate renders the collected
messages in order. -/
def Err.msg : Err → String
  | .simple m => m
  | .aggregate msgs => String.intercalate ", " msgs

/-- The `authorizer.Attributes` interface: the fields this core reads
(`GetUserName`, `GetNamespace`). -/
structure Attributes where
  userName : String
  namespaceName : String
deriving DecidableEq, Repr

/-- An `authorizer.Authorizer`: `Authorize(a) error`. -/
abbrev Authorizer := Attributes → Option Err

/-- Modelled from the spec: `errors.NewAggregate` from `pkg/util/errors`,
which is not among the provided sources.  Per the spec, the union's
exhaustion result is "a single error whose message concatenates/aggregates
all collected per-authorizer errors (order preserved, duplicates allowed,
no deduplication required)", and "an empty authorizer list yields an
aggregated-failure result with zero underlying errors" — i.e. a non-nil
aggregate even for the empty list. -/
def newAggregate (errlist : List Err) : Option Err :=
  some (Err.aggregate (errlist.map Err.msg))

/-- The loop body of `unionAuthzHandler.Authorize`, instrumented with the
number of member authorizers consulted (the spec observes short-circuiting
"via call-count instrumentation in collaborators").  `errlist` is the
accumulator of errors collected so far; each member consulted adds one to
the count. -/
def unionAuthorizeLoop : List Authorizer → Attributes → List Err → Option Err × Nat
  | [], _, errlist => (newAggregate errlist, 0)
  | currAuthzHandler :: rest, a, errlist =>
    match currAuthzHandler a with
    | some err =>
      let r := unionAuthorizeLoop rest a (errlist ++ [err])
      (r.1, r.2 + 1)
    | none => (none, 1)

/-- `unionAuthzHandler.Authorize`: iterate the handlers in order, return
nil on the first nil, otherwise aggregate every error collected. -/
def unionAuthorize (authzHandler : List Authorizer) (a : Attributes) : Option Err :=
  (unionAuthorizeLoop authzHandler a []).1

/-- How many member authorizers `unionAuthzHandler.Authorize` consults. -/
def unionAuthorizeCalls (authzHandler : List Authorizer) (a : Attributes) : Nat :=
  (unionAuthorizeLoop authzHandler a []).2

/-- Generic form of the grant short-circuit: if every handler in `fr`
returns an error and `g` returns nil, the loop returns nil after
consulting exactly `fr.length + 1` handlers, for any accumulator. -/
theorem unionAuthorizeLoop_grant (fr : List Authorizer) (g : Authorizer)
    (post : List Authorizer) (a : Attributes)
    (hfr : ∀ h ∈ fr, h a ≠ none) (hg : g a = none) :
    ∀ acc : List Err, unionAuthorizeLoop (fr ++ g :: post) a acc = (none, fr.length + 1) := by
  induction fr with
  | nil =>
    intro acc
    simp [unionAuthorizeLoop, hg]
  | cons h rest ih =>
    intro acc
    have hh : h a ≠ none := hfr h (List.mem_cons_self h rest)
    obtain ⟨e, he⟩ : ∃ e, h a = some e := by
      cases hcase : h a with
      | none => exact absurd hcase hh
      | some e => exact ⟨e, rfl⟩
    have ih2 := ih (fun x hx => hfr x (List.mem_cons_of_mem h hx))
    simp [unionAuthorizeLoop, he, ih2]

/-- Generic form of the exhaustion case: if the handlers' errors are
pointwise `es`, the loop aggregates the accumulator followed by `es` and
consults every handler. -/
theorem unionAuthorizeLoop_deny (handlers : List Authorizer) (a : Attributes)
    (es : List Err) (hall : List.Forall₂ (fun h e => h a = some e) handlers es) :
    ∀ acc : List Err,
      unionAuthorizeLoop handlers a acc = (newAggregate (acc ++ es), handlers.length) := by
  induction hall with
  | nil =>
    intro acc
    simp [unionAuthorizeLoop]
  | cons hhe _ ih =>
    intro acc
    simp [unionAuthorizeLoop, hhe, ih]

/-- C1: `Authorize` on a union built from an empty authorizer list returns
a non-nil error for every attribute set: the aggregated failure with zero
underlying errors, never nil. -/
theorem unionAuthorize_empty_denies (a : Attributes) :
    unionAuthorize [] a = some (Err.aggregate []) ∧ unionAuthorize [] a ≠ none := by
  constructor
  · rfl
  · intro h
    simp [unionAuthorize, unionAuthorizeLoop, newAggregate] at h

/-- C2: if member `k` (here `g`, preceded by `fr`) returns nil and every
member before it returns a non-nil error, the union returns nil and
consults exactly the first `k + 1` members — no member after `k` is
invoked, whatever `post` holds. -/
theorem unionAuthorize_first_success (fr : List Authorizer) (g : Authorizer)
    (post : List Authorizer) (a : Attributes)
    (hfr : ∀ h ∈ fr, h a ≠ none) (hg : g a = none) :
    unionAuthorize (fr ++ g :: post) a = none ∧
      unionAuthorizeCalls (fr ++ g :: post) a = fr.length + 1 := by
  have h := unionAuthorizeLoop_grant fr g post a hfr hg []
  constructor
  · simp [unionAuthorize, h]
  · simp [unionAuthorizeCalls, h]

/-- Witness for C2: two denying members, one granting member, one member
after it; the union grants having consulted exactly three members. -/
theorem unionAuthorize_first_success_witness :
    unionAuthorize [fun _ => some (Err.simple "a"), fun _ => some (Err.simple "b"),
        fun _ => none, fun _ => some (Err.simple "c")] ⟨"u", "ns"⟩ = none ∧
      unionAuthorizeCalls [fun _ => some (Err.simple "a"), fun _ => some (Err.simple "b"),
        fun _ => none, fun _ => some (Err.simple "c")] ⟨"u", "ns"⟩ = 3 := by
  have h := unionAuthorize_first_success
    [fun _ => some (Err.simple "a"), fun _ => some (Err.simple "b")]
    (fun _ => none) [fun _ => some (Err.simple "c")] ⟨"u", "ns"⟩
    (by
      intro h hmem hnone
      simp at hmem
      rcases hmem with h1 | h1 <;> rw [h1] at hnone <;> simp at hnone)
    rfl
  simpa using h

/-- C3: when every member of a non-empty union returns an error, the union
returns a single aggregated error carrying every member's error message,
in list order, duplicates preserved. -/
theorem unionAuthorize_all_deny (handlers : List Authorizer) (a : Attributes)
    (es : List Err) (hne : handlers ≠ [])
    (hall : List.Forall₂ (fun h e => h a = some e) handlers es) :
    unionAuthorize handlers a = some (Err.aggregate (es.map Err.msg)) := by
  have h := unionAuthorizeLoop_deny handlers a es hall []
  simp [unionAuthorize, h, newAggregate]

/-- Witness for C3: three denying members, two sharing a message; the
union's aggregate lists all three messages in order, duplicate kept. -/
theorem unionAuthorize_all_deny_witness :
    unionAuthorize [fun _ => some (Err.simple "x"), fun _ => some (Err.simple "y"),
        fun _ => some (Err.simple "x")] ⟨"u", "ns"⟩ =
      some (Err.aggregate ["x", "y", "x"]) := by
  have h := unionAuthorize_all_deny
    [fun _ => some (Err.simple "x"), fun _ => some (Err.simple "y"),
      fun _ => some (Err.simple "x")] ⟨"u", "ns"⟩
    [Err.simple "x", Err.simple "y", Err.simple "x"]
    (by simp)
    (List.Forall₂.cons rfl (List.Forall₂.cons rfl (List.Forall₂.cons rfl List.Forall₂.nil)))
  simpa [Err.msg] using h

/-! ## Keystone authorizer (`pkg/auth/authorizer/keystone`) -/

/-- A `users.User` record as read by this core. -/
structure User where
  username : String
  id : String
  enabled : Bool
deriving DecidableEq, Repr

/-- A `tenants.Tenant` record as read by this core. -/
structure Tenant where
  name : String
  id : String
  enabled : Bool
deriving DecidableEq, Repr

/-- The `Interface` of `types.go`: the keystone collaborator consulted by
the authorizer. `roleCheck` returns Go's `(bool, error)`; the listing
calls return `([]T, error)`.  Their outcomes are fields because each sync
pass performs one call. -/
structure OsInterface where
  roleCheck : String → String → Bool × Option Err
  getUsers : List User × Option Err
  getTenants : List Tenant × Option Err

/-- The `keystoneAuthorizer` struct: the collaborator and the two cached
maps. -/
structure KeystoneAuthorizer where
  osClient : OsInterface
  userMap : List (String × String)
  tenantMap : List (String × String)

/-- Go map read `m[k]`: the stored value, or the zero value `""` when the
key is absent. -/
def mapGetD (m : List (String × String)) (k : String) : String :=
  match m with
  | [] => ""
  | (k0, v0) :: rest => if k0 = k then v0 else mapGetD rest k

/-- Go map write `m[k] = v`: overwrite the existing binding or append a
new one. -/
def mapInsert (m : List (String × String)) (k v : String) : List (String × String) :=
  match m with
  | [] => [(k, v)]
  | (k0, v0) :: rest => if k0 = k then (k, v) :: rest else (k0, v0) :: mapInsert rest k v

/-- `isWhiteListedUser`: membership in the compiled-in allowlist (the Go
code reads a literal `map[string]bool`, whose lookup defaults to false). -/
def isWhiteListedUser (username : String) : Bool :=
  username == "kubelet" || username == "kube_proxy" || username == "system:scheduler" ||
    username == "system:controller_manager" || username == "system:logging" ||
    username == "system:monitoring"

/-- `keystoneAuthorizer.Authorize`, instrumented with the number of
`roleCheck` invocations (the spec asks to "verify RoleChecker is never
invoked" on the bypass paths).  The service-account prefix and the
allowlist grant immediately; otherwise the cached ids (missing entries
read as `""`) go to `roleCheck`: a collaborator error yields the fixed
"Keystone authorization failed" error, a positive role grants, a negative
role denies with the namespace reason. -/
def keystoneAuthorizeInstr (ka : KeystoneAuthorizer) (a : Attributes) : Option Err × Nat :=
  if a.userName.startsWith "system:serviceaccount:" then (none, 0)
  else if isWhiteListedUser a.userName then (none, 0)
  else
    match ka.osClient.roleCheck (mapGetD ka.userMap a.userName) (mapGetD ka.tenantMap a.namespaceName) with
    | (_, some _) => (some (Err.simple "Keystone authorization failed"), 1)
    | (true, none) => (none, 1)
    | (false, none) => (some (Err.simple "User not authorized through keystone for namespace"), 1)

/-- `keystoneAuthorizer.Authorize`: the error component of the
instrumented run. -/
def keystoneAuthorize (ka : KeystoneAuthorizer) (a : Attributes) : Option Err :=
  (keystoneAuthorizeInstr ka a).1

/-- How many times `Authorize` invoked the collaborator's `roleCheck`. -/
def keystoneAuthorizeRoleChecks (ka : KeystoneAuthorizer) (a : Attributes) : Nat :=
  (keystoneAuthorizeInstr ka a).2

/-- `keystoneAuthorizer.syncTenantMap`, in state-passing form: returns the
updated authorizer and the Go error.  A listing failure returns the error
before the assignment to `ka.tenantMap`, so the receiver is unchanged. -/
def syncTenantMap (ka : KeystoneAuthorizer) : KeystoneAuthorizer × Option Err :=
  match ka.osClient.getTenants with
  | (_, some e) => (ka, some e)
  | (tenantList, none) =>
    let tenantMap := tenantList.foldl
      (fun m tenant => if tenant.enabled then mapInsert m tenant.name tenant.id else m) []
    ({ ka with tenantMap := tenantMap }, none)

/-- `keystoneAuthorizer.syncUserMap`, in state-passing form, symmetric to
`syncTenantMap`. -/
def syncUserMap (ka : KeystoneAuthorizer) : KeystoneAuthorizer × Option Err :=
  match ka.osClient.getUsers with
  | (_, some e) => (ka, some e)
  | (userList, none) =>
    let userMap := userList.foldl
      (fun m user => if user.enabled then mapInsert m user.username user.id else m) []
    ({ ka with userMap := userMap }, none)

/-- `OpenstackClient.roleCheck` of the authorizer plugin: the two
empty-id guards (both built with the same "UserID null during
authorization" message), then the paginated listing of the user's roles
on the tenant — an external call, abstracted as `remote`, whose error is
surfaced and whose page contents decide `hasRole`. -/
def OpenstackClient.roleCheck (remote : String → String → Except Err Bool)
    (userID tenantID : String) : Bool × Option Err :=
  if userID = "" then (false, some (Err.simple "UserID null during authorization"))
  else if tenantID = "" then (false, some (Err.simple "UserID null during authorization"))
  else
    match remote userID tenantID with
    | .error e => (false, some e)
    | .ok hasRole => (hasRole, none)

/-- C4: a subject whose name has the service-account prefix or is in the
compiled-in allowlist is granted with zero `roleCheck` invocations, for
every cache state and every collaborator. -/
theorem keystoneAuthorize_bypass (ka : KeystoneAuthorizer) (a : Attributes)
    (h : a.userName.startsWith "system:serviceaccount:" = true ∨
      isWhiteListedUser a.userName = true) :
    keystoneAuthorize ka a = none ∧ keystoneAuthorizeRoleChecks ka a = 0 := by
  rcases h with h | h
  · constructor <;> simp [keystoneAuthorize, keystoneAuthorizeRoleChecks, keystoneAuthorizeInstr, h]
  · constructor <;> simp [keystoneAuthorize, keystoneAuthorizeRoleChecks, keystoneAuthorizeInstr, h]

/-- Witness for C4: the allowlisted "kubelet" is granted without any role
check, against a collaborator that would both error and deny. -/
theorem keystoneAuthorize_bypass_witness :
    keystoneAuthorize
        { osClient := { roleCheck := fun _ _ => (false, some (Err.simple "boom")),
                        getUsers := ([], none), getTenants := ([], none) },
          userMap := [], tenantMap := [] } ⟨"kubelet", "ns"⟩ = none ∧
      keystoneAuthorizeRoleChecks
        { osClient := { roleCheck := fun _ _ => (false, some (Err.simple "boom")),
                        getUsers := ([], none), getTenants := ([], none) },
          userMap := [], tenantMap := [] } ⟨"kubelet", "ns"⟩ = 0 :=
  keystoneAuthorize_bypass _ _ (Or.inr (by decide))

/-- C6: a failing listing call makes each sync return that error with the
authorizer record — hence both cached maps and every lookup — entirely
unchanged. -/
theorem syncMaps_failure_preserves_cache (ka : KeystoneAuthorizer) (e e' : Err)
    (ul : List User) (tl : List Tenant)
    (hu : ka.osClient.getUsers = (ul, some e))
    (ht : ka.osClient.getTenants = (tl, some e')) :
    syncUserMap ka = (ka, some e) ∧
      syncTenantMap ka = (ka, some e') ∧
      (∀ k, mapGetD (syncUserMap ka).1.userMap k = mapGetD ka.userMap k) ∧
      (∀ k, mapGetD (syncTenantMap ka).1.tenantMap k = mapGetD ka.tenantMap k) := by
  have h1 : syncUserMap ka = (ka, some e) := by simp [syncUserMap, hu]
  have h2 : syncTenantMap ka = (ka, some e') := by simp [syncTenantMap, ht]
  exact ⟨h1, h2, fun k => by rw [h1], fun k => by rw [h2]⟩

/-- Witness for C6: a populated cache survives failing listing calls. -/
theorem syncMaps_failure_preserves_cache_witness :
    syncUserMap
        { osClient := { roleCheck := fun _ _ => (false, none),
                        getUsers := ([], some (Err.simple "down")),
                        getTenants := ([], some (Err.simple "down2")) },
          userMap := [("user1", "12")], tenantMap := [("tenant1", "123")] } =
      ({ osClient := { roleCheck := fun _ _ => (false, none),
                       getUsers := ([], some (Err.simple "down")),
                       getTenants := ([], some (Err.simple "down2")) },
         userMap := [("user1", "12")], tenantMap := [("tenant1", "123")] }, some (Err.simple "down")) ∧
      mapGetD (syncUserMap
        { osClient := { roleCheck := fun _ _ => (false, none),
                        getUsers := ([], some (Err.simple "down")),
                        getTenants := ([], some (Err.simple "down2")) },
          userMap := [("user1", "12")], tenantMap := [("tenant1", "123")] }).1.userMap "user1" = "12" := by
  have h := syncMaps_failure_preserves_cache
    { osClient := { roleCheck := fun _ _ => (false, none),
                    getUsers := ([], some (Err.simple "down")),
                    getTenants := ([], some (Err.simple "down2")) },
      userMap := [("user1", "12")], tenantMap := [("tenant1", "123")] }
    (Err.simple "down") (Err.simple "down2") [] [] rfl rfl
  exact ⟨h.1, by rw [h.2.2.1 "user1"]; rfl⟩

/-- C7: on the role-check path, a collaborator error produces the fixed
generic "Keystone authorization failed" error — the same constant for
every underlying error, so the collaborator's message never appears —
while `(true, nil)` grants and `(false, nil)` denies with the namespace
reason. -/
theorem keystoneAuthorize_roleCheck_outcomes (ka : KeystoneAuthorizer) (a : Attributes)
    (hsa : a.userName.startsWith "system:serviceaccount:" = false)
    (hwl : isWhiteListedUser a.userName = false) :
    (∀ b e, ka.osClient.roleCheck (mapGetD ka.userMap a.userName) (mapGetD ka.tenantMap a.namespaceName) = (b, some e) →
      keystoneAuthorize ka a = some (Err.simple "Keystone authorization failed")) ∧
    (ka.osClient.roleCheck (mapGetD ka.userMap a.userName) (mapGetD ka.tenantMap a.namespaceName) = (true, none) →
      keystoneAuthorize ka a = none) ∧
    (ka.osClient.roleCheck (mapGetD ka.userMap a.userName) (mapGetD ka.tenantMap a.namespaceName) = (false, none) →
      keystoneAuthorize ka a = some (Err.simple "User not authorized through keystone for namespace")) := by
  refine ⟨fun b e hrc => ?_, fun hrc => ?_, fun hrc => ?_⟩
  · cases b <;> simp [keystoneAuthorize, keystoneAuthorizeInstr, hsa, hwl, hrc]
  · simp [keystoneAuthorize, keystoneAuthorizeInstr, hsa, hwl, hrc]
  · simp [keystoneAuthorize, keystoneAuthorizeInstr, hsa, hwl, hrc]

/-- Witness for C7: subject "alice" is neither a service account nor
allowlisted; an erroring collaborator yields the generic failure, a
granting one grants, a role-less one denies with the namespace reason. -/
theorem keystoneAuthorize_roleCheck_outcomes_witness :
    keystoneAuthorize
        { osClient := { roleCheck := fun _ _ => (false, some (Err.simple "socket closed")),
                        getUsers := ([], none), getTenants := ([], none) },
          userMap := [("alice", "7")], tenantMap := [("ns", "8")] } ⟨"alice", "ns"⟩ =
      some (Err.simple "Keystone authorization failed") ∧
    keystoneAuthorize
        { osClient := { roleCheck := fun _ _ => (true, none),
                        getUsers := ([], none), getTenants := ([], none) },
          userMap := [("alice", "7")], tenantMap := [("ns", "8")] } ⟨"alice", "ns"⟩ = none ∧
    keystoneAuthorize
        { osClient := { roleCheck := fun _ _ => (false, none),
                        getUsers := ([], none), getTenants := ([], none) },
          userMap := [("alice", "7")], tenantMap := [("ns", "8")] } ⟨"alice", "ns"⟩ =
      some (Err.simple "User not authorized through keystone for namespace") := by
  refine ⟨?_, ?_, ?_⟩
  · exact (keystoneAuthorize_roleCheck_outcomes _ _ (by decide) (by decide)).1
      false (Err.simple "socket closed") rfl
  · exact (keystoneAuthorize_roleCheck_outcomes _ _ (by decide) (by decide)).2.1 rfl
  · exact (keystoneAuthorize_roleCheck_outcomes _ _ (by decide) (by decide)).2.2 rfl

/-- C9: with the cache state and role set of the repository's test data,
"user1" is granted in "tenant1" and denied in "tenant3" (absent from the
tenant cache). -/
theorem keystoneAuthorize_end_to_end :
    keystoneAuthorize
        { osClient := { roleCheck := fun u t => (u == "12" && (t == "123" || t == "234"), none),
                        getUsers := ([], none), getTenants := ([], none) },
          userMap := [("user1", "12")],
          tenantMap := [("tenant1", "123"), ("tenant2", "234")] } ⟨"user1", "tenant1"⟩ = none ∧
      keystoneAuthorize
        { osClient := { roleCheck := fun u t => (u == "12" && (t == "123" || t == "234"), none),
                        getUsers := ([], none), getTenants := ([], none) },
          userMap := [("user1", "12")],
          tenantMap := [("tenant1", "123"), ("tenant2", "234")] } ⟨"user1", "tenant3"⟩ =
        some (Err.simple "User not authorized through keystone for namespace") := by
  constructor <;> rfl

/-- C10: `OpenstackClient.roleCheck` rejects an empty user or tenant id
with the "UserID null during authorization" guard error (the tenant guard
reuses the same message), so a subject or namespace missing from the
cache — which resolves to the empty id — makes `Authorize` return the
generic "Keystone authorization failed" denial, not the namespace one. -/
theorem keystoneAuthorize_empty_id_generic_failure
    (remote : String → String → Except Err Bool) (ka : KeystoneAuthorizer) (a : Attributes)
    (hrc : ka.osClient.roleCheck = OpenstackClient.roleCheck remote)
    (hsa : a.userName.startsWith "system:serviceaccount:" = false)
    (hwl : isWhiteListedUser a.userName = false)
    (hid : mapGetD ka.userMap a.userName = "" ∨ mapGetD ka.tenantMap a.namespaceName = "") :
    OpenstackClient.roleCheck remote (mapGetD ka.userMap a.userName) (mapGetD ka.tenantMap a.namespaceName) =
      (false, some (Err.simple "UserID null during authorization")) ∧
    keystoneAuthorize ka a = some (Err.simple "Keystone authorization failed") ∧
    keystoneAuthorize ka a ≠ some (Err.simple "User not authorized through keystone for namespace") := by
  have hguard : OpenstackClient.roleCheck remote (mapGetD ka.userMap a.userName)
      (mapGetD ka.tenantMap a.namespaceName) =
      (false, some (Err.simple "UserID null during authorization")) := by
    rcases hid with h | h
    · simp [OpenstackClient.roleCheck, h]
    · by_cases hu : mapGetD ka.userMap a.userName = "" <;>
        simp [OpenstackClient.roleCheck, h, hu]
  have hauth : keystoneAuthorize ka a = some (Err.simple "Keystone authorization failed") := by
    simp [keystoneAuthorize, keystoneAuthorizeInstr, hsa, hwl, hrc, hguard]
  refine ⟨hguard, hauth, ?_⟩
  rw [hauth]
  intro h
  simp at h

/-- Witness for C10: the whole tenant cache lacks "tenant3", the remote
role listing would even grant, yet the guard error makes `Authorize`
return the generic failure. -/
theorem keystoneAuthorize_empty_id_generic_failure_witness :
    keystoneAuthorize
        { osClient := { roleCheck := OpenstackClient.roleCheck (fun _ _ => Except.ok true),
                        getUsers := ([], none), getTenants := ([], none) },
          userMap := [("user1", "12")], tenantMap := [("tenant1", "123")] } ⟨"user1", "tenant3"⟩ =
      some (Err.simple "Keystone authorization failed") :=
  (keystoneAuthorize_empty_id_generic_failure (fun _ _ => Except.ok true)
    { osClient := { roleCheck := OpenstackClient.roleCheck (fun _ _ => Except.ok true),
                    getUsers := ([], none), getTenants := ([], none) },
      userMap := [("user1", "12")], tenantMap := [("tenant1", "123")] } ⟨"user1", "tenant3"⟩
    rfl (by decide) (by decide) (Or.inr rfl)).2.1

/-! ## Keystone basic-auth request authenticator
(`plugin/pkg/auth/authenticator/request/keystone/keystone.go`)

Go strings are byte sequences, and this code manipulates them at the byte
level (base64, splitting on single-byte separators), so here a Go string
is a `List Nat` of byte values.  `strings.TrimSpace` and `strings.ToLower`
are embedded at ASCII fidelity: the full Go functions additionally handle
non-ASCII Unicode white space and letters, which no input in this
development (and no scheme token or base64 alphabet byte) contains. -/

/-- A Go string as its byte sequence. -/
abbrev GoStr := List Nat

/-- The byte sequence of an ASCII string literal. -/
def bytes (s : String) : GoStr :=
  s.data.map Char.toNat

/-- A `user.Info` as this code constructs it (`user.DefaultInfo{Name: username}`). -/
structure UserInfo where
  name : GoStr
deriving DecidableEq, Repr

/-- The `(user.Info, bool, error)` triple of `authenticator.Password` and
`AuthenticateRequest`. -/
abbrev AuthResult := Option UserInfo × Bool × Option Err

/-- ASCII white space, the cases of `unicode.IsSpace` below 0x80. -/
def isSpaceB (b : Nat) : Bool :=
  b == 32 || b == 9 || b == 10 || b == 11 || b == 12 || b == 13

/-- `strings.TrimSpace` (ASCII fidelity): drop white space from both
ends. -/
def trimSpace (s : GoStr) : GoStr :=
  ((s.dropWhile isSpaceB).reverse.dropWhile isSpaceB).reverse

/-- `strings.Split(s, sep)` for a single-byte separator: the substrings
between consecutive separators, empty parts included. -/
def splitByte (sep : Nat) : GoStr → List GoStr
  | [] => [[]]
  | b :: rest =>
    if b = sep then [] :: splitByte sep rest
    else
      match splitByte sep rest with
      | [] => [[b]]
      | t :: ts => (b :: t) :: ts

/-- `strings.ToLower` on one byte (ASCII fidelity). -/
def toLowerB (b : Nat) : Nat :=
  if 65 ≤ b ∧ b ≤ 90 then b + 32 else b

/-- `strings.ToLower` (ASCII fidelity). -/
def toLowerStr (s : GoStr) : GoStr :=
  s.map toLowerB

/-- `strings.SplitN(s, sep, 2)` for a single-byte separator: at most two
parts, the second holding everything after the first separator verbatim. -/
def splitN2 (sep : Nat) : GoStr → List GoStr
  | [] => [[]]
  | b :: rest =>
    if b = sep then [[], rest]
    else
      match splitN2 sep rest with
      | [] => [[b]]
      | t :: ts => (b :: t) :: ts

/-- The byte `base64.StdEncoding` uses for the sextet `n`: `A`-`Z`,
`a`-`z`, `0`-`9`, `+`, `/`. -/
def encB64 (n : Nat) : Nat :=
  if n < 26 then 65 + n
  else if n < 52 then 97 + (n - 26)
  else if n < 62 then 48 + (n - 52)
  else if n = 62 then 43
  else 47

/-- The sextet a `base64.StdEncoding` alphabet byte denotes, `none` for a
byte outside the alphabet. -/
def decB64 (c : Nat) : Option Nat :=
  if 65 ≤ c ∧ c ≤ 90 then some (c - 65)
  else if 97 ≤ c ∧ c ≤ 122 then some (c - 97 + 26)
  else if 48 ≤ c ∧ c ≤ 57 then some (c - 48 + 52)
  else if c = 43 then some 62
  else if c = 47 then some 63
  else none

/-- `base64.StdEncoding.EncodeToString`: each group of three bytes becomes
four alphabet bytes; a trailing group of one or two bytes is padded with
`=` (byte 61). -/
def b64encode : List Nat → List Nat
  | [] => []
  | [a] => [encB64 (a / 4), encB64 (a % 4 * 16), 61, 61]
  | [a, b] => [encB64 (a / 4), encB64 (a % 4 * 16 + b / 16), encB64 (b % 16 * 4), 61]
  | a :: b :: c :: rest =>
    encB64 (a / 4) :: encB64 (a % 4 * 16 + b / 16) :: encB64 (b % 16 * 4 + c / 64) ::
      encB64 (c % 64) :: b64encode rest

/-- `base64.StdEncoding.DecodeString`: quartets of alphabet bytes, the
last quartet optionally `=`-padded; `none` on a byte outside the alphabet,
misplaced padding or a length not a multiple of four.  (The Go decoder
additionally skips `\r` and `\n` inside the payload, which no claim
exercises.) -/
def b64decode : List Nat → Option (List Nat)
  | [] => some []
  | c0 :: c1 :: c2 :: c3 :: rest =>
    match decB64 c0, decB64 c1 with
    | some s0, some s1 =>
      if c2 = 61 then
        if c3 = 61 ∧ rest = [] then some [s0 * 4 + s1 / 16] else none
      else
        match decB64 c2 with
        | some s2 =>
          if c3 = 61 then
            if rest = [] then some [s0 * 4 + s1 / 16, s1 % 16 * 16 + s2 / 4] else none
          else
            match decB64 c3 with
            | some s3 =>
              (b64decode rest).map
                (fun tail => (s0 * 4 + s1 / 16) :: (s1 % 16 * 16 + s2 / 4) :: (s2 % 4 * 64 + s3) :: tail)
            | none => none
        | none => none
    | _, _ => none
  | _ => none

/-- The header-parsing steps of `AuthenticateRequest` (the spec's
`BasicAuthDecoder`): trim the header, require a two-token `Basic` scheme,
base64-decode the payload, split it at the first colon.  The base64 error
stands in for the `base64.CorruptInputError` the Go decoder returns. -/
def basicAuthDecode (authHeader : GoStr) : Except Err (GoStr × GoStr) :=
  let auth := trimSpace authHeader
  if auth = [] then .error (Err.simple "Authorization header isempty, failing request")
  else
    let parts := splitByte 32 auth
    if parts.length < 2 ∨ toLowerStr (parts.getD 0 []) ≠ bytes "basic" then
      .error (Err.simple "invalid header")
    else
      match b64decode (parts.getD 1 []) with
      | none => .error (Err.simple "illegal base64 data")
      | some payload =>
        match splitN2 58 payload with
        | [username, password] => .ok (username, password)
        | _ => .error (Err.simple "malformed basic auth header")

/-- `KeystoneAuthenticator.AuthenticateRequest`: the same steps inline,
ending in the delegation `a.osClient.AuthenticatePassword(username,
password)` whose triple is returned unchanged.  The request is read only
through its `Authorization` header, the argument here. -/
def authenticateRequest (osClientAuth : GoStr → GoStr → AuthResult)
    (authHeader : GoStr) : AuthResult :=
  let auth := trimSpace authHeader
  if auth = [] then (none, false, some (Err.simple "Authorization header isempty, failing request"))
  else
    let parts := splitByte 32 auth
    if parts.length < 2 ∨ toLowerStr (parts.getD 0 []) ≠ bytes "basic" then
      (none, false, some (Err.simple "invalid header"))
    else
      match b64decode (parts.getD 1 []) with
      | none => (none, false, some (Err.simple "illegal base64 data"))
      | some payload =>
        match splitN2 58 payload with
        | [username, password] => osClientAuth username password
        | _ => (none, false, some (Err.simple "malformed basic auth header"))

/-- The password collaborator of the authenticator's own test
(`testOpenstackClient.AuthenticatePassword`): a fixed user/password table
(read with the Go zero-value convention), a match yields the identity with
`true` and nil error, a mismatch yields `(nil, false, nil)`. -/
def testAuthenticatePassword (username password : GoStr) : AuthResult :=
  let stored : GoStr :=
    if username = bytes "user1" then bytes "password1"
    else if username = bytes "user2" then bytes "password2"
    else if username = bytes "user3" then bytes "password3"
    else if username = bytes "user4" then bytes "password4"
    else if username = bytes "user5" then bytes "password5"
    else if username = bytes "user6" then bytes "password6"
    else if username = bytes "user7" then bytes "password7"
    else if username = bytes "user8" then bytes "password8"
    else if username = bytes "user9" then bytes "password8"
    else []
  if stored = password then (some { name := username }, true, none)
  else (none, false, none)

/-- Decoding inverts the base64 alphabet on every sextet. -/
theorem decB64_encB64 : ∀ s < 64, decB64 (encB64 s) = some s := by decide

/-- No sextet encodes to the padding byte `=`. -/
theorem encB64_ne_pad : ∀ s < 64, encB64 s ≠ 61 := by decide

/-- Every alphabet byte lies between `+` (43) and `z` (122); in
particular it is neither white space nor the space separator. -/
theorem encB64_range (s : Nat) : 43 ≤ encB64 s ∧ encB64 s ≤ 122 := by
  unfold encB64
  repeat' split
  all_goals omega

/-- Every byte of a base64 encoding, padding included, lies between 43
and 122. -/
theorem b64encode_range (xs : List Nat) : ∀ ch ∈ b64encode xs, 43 ≤ ch ∧ ch ≤ 122 := by
  induction xs using b64encode.induct with
  | case1 => simp [b64encode]
  | case2 a =>
    intro ch hch
    simp [b64encode] at hch
    rcases hch with h | h | h
    · exact h ▸ encB64_range _
    · exact h ▸ encB64_range _
    · omega
  | case3 a b =>
    intro ch hch
    simp [b64encode] at hch
    rcases hch with h | h | h | h
    · exact h ▸ encB64_range _
    · exact h ▸ encB64_range _
    · exact h ▸ encB64_range _
    · omega
  | case4 a b c rest ih =>
    intro ch hch
    simp [b64encode] at hch
    rcases hch with h | h | h | h | h
    · exact h ▸ encB64_range _
    · exact h ▸ encB64_range _
    · exact h ▸ encB64_range _
    · exact h ▸ encB64_range _
    · exact ih ch h

/-- Round trip of the embedded `base64.StdEncoding`: decoding an encoding
recovers the original bytes. -/
theorem b64decode_encode (xs : List Nat) (h : ∀ b ∈ xs, b < 256) :
    b64decode (b64encode xs) = some xs := by
  induction xs using b64encode.induct with
  | case1 => rfl
  | case2 a =>
    have ha : a < 256 := h a (by simp)
    have h1 := decB64_encB64 (a / 4) (by omega)
    have h2 := decB64_encB64 (a % 4 * 16) (by omega)
    simp [b64encode, b64decode, h1, h2]
    omega
  | case3 a b =>
    have ha : a < 256 := h a (by simp)
    have hb : b < 256 := h b (by simp)
    have h1 := decB64_encB64 (a / 4) (by omega)
    have h2 := decB64_encB64 (a % 4 * 16 + b / 16) (by omega)
    have h3 := decB64_encB64 (b % 16 * 4) (by omega)
    have hn3 := encB64_ne_pad (b % 16 * 4) (by omega)
    simp [b64encode, b64decode, h1, h2, h3, hn3]
    constructor <;> omega
  | case4 a b c rest ih =>
    have ha : a < 256 := h a (by simp)
    have hb : b < 256 := h b (by simp)
    have hc : c < 256 := h c (by simp)
    have hrest : ∀ x ∈ rest, x < 256 := fun x hx => h x (by simp [hx])
    have h1 := decB64_encB64 (a / 4) (by omega)
    have h2 := decB64_encB64 (a % 4 * 16 + b / 16) (by omega)
    have h3 := decB64_encB64 (b % 16 * 4 + c / 64) (by omega)
    have h4 := decB64_encB64 (c % 64) (by omega)
    have hn3 := encB64_ne_pad (b % 16 * 4 + c / 64) (by omega)
    have hn4 := encB64_ne_pad (c % 64) (by omega)
    simp [b64encode, b64decode, h1, h2, h3, h4, hn3, hn4, ih hrest]
    refine ⟨by omega, by omega, by omega⟩

/-- Trimming leaves a string whose two ends are not white space
unchanged. -/
theorem trimSpace_eq_self (x y : Nat) (l : List Nat)
    (hx : isSpaceB x = false) (hy : isSpaceB y = false) :
    trimSpace (x :: (l ++ [y])) = x :: (l ++ [y]) := by
  unfold trimSpace
  rw [List.dropWhile_cons_of_neg (by simp [hx])]
  have hrev : (x :: (l ++ [y])).reverse = y :: (l.reverse ++ [x]) := by simp
  rw [hrev, List.dropWhile_cons_of_neg (by simp [hy])]
  simp

/-- A string without the separator splits into itself alone. -/
theorem splitByte_not_mem (sep : Nat) (l : List Nat) (h : sep ∉ l) :
    splitByte sep l = [l] := by
  induction l with
  | nil => rfl
  | cons b rest ih =>
    have hb : b ≠ sep := fun hc => h (hc ▸ List.mem_cons_self b rest)
    have hrest : sep ∉ rest := fun hc => h (List.mem_cons_of_mem b hc)
    simp [splitByte, hb, ih hrest]

/-- Splitting at the first separator occurrence: the part before it
becomes the first field. -/
theorem splitByte_append_sep (sep : Nat) (u v : List Nat) (hu : sep ∉ u) :
    splitByte sep (u ++ sep :: v) = u :: splitByte sep v := by
  induction u with
  | nil => simp [splitByte]
  | cons b rest ih =>
    have hb : b ≠ sep := fun hc => hu (hc ▸ List.mem_cons_self b rest)
    have hrest : sep ∉ rest := fun hc => hu (List.mem_cons_of_mem b hc)
    have h2 := ih hrest
    simp [splitByte, hb, h2]

/-- `SplitN(s, sep, 2)` at the first separator occurrence: everything
after it, further separators included, is the second field. -/
theorem splitN2_append_sep (sep : Nat) (u p : List Nat) (hu : sep ∉ u) :
    splitN2 sep (u ++ sep :: p) = [u, p] := by
  induction u with
  | nil => simp [splitN2]
  | cons b rest ih =>
    have hb : b ≠ sep := fun hc => hu (hc ▸ List.mem_cons_self b rest)
    have hrest : sep ∉ rest := fun hc => hu (List.mem_cons_of_mem b hc)
    have h2 := ih hrest
    simp [splitN2, hb, h2]

/-- A nonempty byte string has a nonempty base64 encoding. -/
theorem b64encode_ne_nil (a : Nat) (xs : List Nat) : b64encode (a :: xs) ≠ [] := by
  match xs with
  | [] => simp [b64encode]
  | [b] => simp [b64encode]
  | b :: c :: rest => simp [b64encode]

/-- C8: for every colon-free username and every password (bytes, colons in
the password allowed), decoding the header `"Basic " ++
base64(username ++ ":" ++ password)` succeeds and returns exactly that
username and that password. -/
theorem basicAuthDecode_roundtrip (u p : GoStr)
    (hu256 : ∀ b ∈ u, b < 256) (hp256 : ∀ b ∈ p, b < 256) (hcolon : 58 ∉ u) :
    basicAuthDecode (bytes "Basic " ++ b64encode (u ++ 58 :: p)) =
      .ok (u, p) := by
  set payload : List Nat := u ++ 58 :: p with hpayload
  have hpay256 : ∀ b ∈ payload, b < 256 := by
    intro b hb
    rw [hpayload] at hb
    rcases List.mem_append.1 hb with h | h
    · exact hu256 b h
    rcases List.mem_cons.1 h with h | h
    · omega
    · exact hp256 b h
  set E : List Nat := b64encode payload with hE
  have hErange : ∀ ch ∈ E, 43 ≤ ch ∧ ch ≤ 122 := fun ch hch => b64encode_range payload ch hch
  have hEnn : E ≠ [] := by
    rw [hE]
    cases u with
    | nil => exact b64encode_ne_nil 58 p
    | cons a u0 => exact b64encode_ne_nil a (u0 ++ 58 :: p)
  obtain ⟨E0, elast, hEeq⟩ : ∃ E0 elast, E = E0 ++ [elast] := by
    rcases List.eq_nil_or_concat E with h | ⟨E0, elast, h⟩
    · exact absurd h hEnn
    · exact ⟨E0, elast, by simpa [List.concat_eq_append] using h⟩
  have hheader : bytes "Basic " ++ E = 66 :: (bytes "asic " ++ E0 ++ [elast]) := by
    rw [hEeq]
    rfl
  have hlast_range : 43 ≤ elast ∧ elast ≤ 122 := by
    refine hErange elast ?_
    rw [hEeq]
    simp
  have htrim : trimSpace (bytes "Basic " ++ E) = bytes "Basic " ++ E := by
    rw [hheader]
    rw [trimSpace_eq_self 66 elast (bytes "asic " ++ E0) (by decide)
      (by simp [isSpaceB]; omega)]
  have hnospace : 32 ∉ E := by
    intro hc
    have := hErange 32 hc
    omega
  have hsplit : splitByte 32 (bytes "Basic " ++ E) = [bytes "Basic", E] := by
    have : bytes "Basic " ++ E = bytes "Basic" ++ 32 :: E := by rfl
    rw [this, splitByte_append_sep 32 (bytes "Basic") E (by decide),
      splitByte_not_mem 32 E hnospace]
  have hdec : b64decode E = some payload := by
    rw [hE]
    exact b64decode_encode payload hpay256
  have hne : bytes "Basic " ++ E ≠ [] := by
    intro hc
    have : (bytes "Basic " ++ E).length = 0 := by rw [hc]; rfl
    simp [bytes] at this
  unfold basicAuthDecode
  rw [htrim]
  rw [if_neg hne, hsplit]
  have hcond : ¬([bytes "Basic", E].length < 2 ∨
      toLowerStr ([bytes "Basic", E].getD 0 []) ≠ bytes "basic") := by
    simp only [List.length_cons, List.length_singleton, List.getD_cons_zero]
    push_neg
    exact ⟨by omega, by decide⟩
  rw [if_neg hcond]
  simp only [List.getD_cons_succ, List.getD_cons_zero, hdec]
  rw [hpayload, splitN2_append_sep 58 u p hcolon]

/-- C5: whenever the Authorization header parses as Basic auth,
`AuthenticateRequest` returns exactly the triple produced by the password
collaborator — so a negative credential check from the collaborator comes
back as `(nil, false, nil)`, and after a successful parse an error can
only come from the collaborator itself. -/
theorem authenticateRequest_delegates (f : GoStr → GoStr → AuthResult)
    (authHeader u p : GoStr) (h : basicAuthDecode authHeader = .ok (u, p)) :
    authenticateRequest f authHeader = f u p := by
  simp only [basicAuthDecode] at h
  simp only [authenticateRequest]
  by_cases h1 : trimSpace authHeader = []
  · rw [if_pos h1] at h
    exact Except.noConfusion h
  rw [if_neg h1] at h
  rw [if_neg h1]
  by_cases h2 : (splitByte 32 (trimSpace authHeader)).length < 2 ∨
      toLowerStr ((splitByte 32 (trimSpace authHeader)).getD 0 []) ≠ bytes "basic"
  · rw [if_pos h2] at h
    exact Except.noConfusion h
  rw [if_neg h2] at h
  rw [if_neg h2]
  cases hdec : b64decode ((splitByte 32 (trimSpace authHeader)).getD 1 []) with
  | none =>
    simp only [hdec] at h
    exact Except.noConfusion h
  | some payload =>
    simp only [hdec] at h
    simp only [hdec]
    rcases hsplit : splitN2 58 payload with _ | ⟨x, _ | ⟨y, _ | ⟨z, zs⟩⟩⟩ <;>
      simp only [hsplit] at h ⊢
    · exact Except.noConfusion h
    · exact Except.noConfusion h
    · injection h with h3
      injection h3 with ha hb
      subst ha
      subst hb
      rfl
    · exact Except.noConfusion h

/-- Witness for C5: the header `Basic base64("user1:password2")` parses,
and against the repository's own test collaborator (whose table pairs
"user1" with "password1") the authenticator returns the collaborator's
`(nil, false, nil)` — a non-error negative result for a wrong password. -/
theorem authenticateRequest_delegates_witness :
    basicAuthDecode (bytes "Basic " ++ b64encode (bytes "user1:password2")) =
      .ok (bytes "user1", bytes "password2") ∧
    authenticateRequest testAuthenticatePassword
        (bytes "Basic " ++ b64encode (bytes "user1:password2")) = (none, false, none) := by
  have hdec : basicAuthDecode (bytes "Basic " ++ b64encode (bytes "user1:password2")) =
      .ok (bytes "user1", bytes "password2") := by rfl
  have h := authenticateRequest_delegates testAuthenticatePassword
    (bytes "Basic " ++ b64encode (bytes "user1:password2"))
    (bytes "user1") (bytes "password2") hdec
  refine ⟨hdec, ?_⟩
  rw [h]
  rfl

/-- Witness for C8: username "user1" (colon-free), password "pass:word"
(containing a colon) round-trip through the encoded header exactly. -/
theorem basicAuthDecode_roundtrip_witness :
    (∀ b ∈ bytes "user1", b < 256) ∧ (∀ b ∈ bytes "pass:word", b < 256) ∧
      58 ∉ bytes "user1" ∧
      basicAuthDecode (bytes "Basic " ++ b64encode (bytes "user1" ++ 58 :: bytes "pass:word")) =
        .ok (bytes "user1", bytes "pass:word") :=
  ⟨by decide, by decide, by decide,
    basicAuthDecode_roundtrip (bytes "user1") (bytes "pass:word")
      (by decide) (by decide) (by decide)⟩
